import Mathlib

/-!
Verification of the gmail-pubsub history-reconciliation pipeline.

Shallow embedding of the core of the `gmail-pubsub` repository:
the history-reconciliation engine (`src/gmail_handler.py`), the MIME
decoding utilities (`src/utils/email_utils.py`), the body-selection logic
of `process_email` (`src/process_email.py` / `app/process_email.py`) and
the watch-subscription manager (`src/watch_manager.py`).

External collaborators (the Gmail HTTP API, base64/UTF-8 decoding,
BeautifulSoup HTML stripping, the consumer callback) are modelled as
oracle parameters; everything the code of the repository itself does is
translated faithfully into executable Lean definitions.
-/

set_option autoImplicit false

namespace GmailPubsub

/-! ## Python `int(str)` parsing

`process_history` compares cursors with `int(history_id)` /
`int(last_processed_id)`.  Python `int` of a string strips surrounding
whitespace, accepts an optional sign, and allows single underscores
between digits. -/

/-- Accumulating evaluator for a Python integer-literal digit string:
digits with optional single underscores strictly between digits. -/
def pyDigitsAux : Nat → List Char → Option Nat
  | acc, [] => some acc
  | acc, '_' :: c :: cs =>
      if c.isDigit then pyDigitsAux (acc * 10 + (c.toNat - 48)) cs else none
  | acc, c :: cs =>
      if c.isDigit then pyDigitsAux (acc * 10 + (c.toNat - 48)) cs else none

/-- A nonempty digit run (underscore not allowed in first position). -/
def pyDigitsStart : List Char → Option Nat
  | [] => none
  | c :: cs => if c.isDigit then pyDigitsAux (c.toNat - 48) cs else none

/-- Python `str.strip()` on a character list: drop leading and trailing
whitespace. -/
def pyStripChars (cs : List Char) : List Char :=
  ((cs.dropWhile Char.isWhitespace).reverse.dropWhile Char.isWhitespace).reverse

/-- Python `str.strip()`. -/
def pyStrip (s : String) : String :=
  String.mk (pyStripChars s.toList)

/-- Model of Python `int(s)` for a string argument: `some n` when the call
succeeds, `none` when it raises `ValueError`. -/
def pyParseInt (s : String) : Option Int :=
  match pyStripChars s.toList with
  | [] => none
  | '+' :: cs => (pyDigitsStart cs).map Int.ofNat
  | '-' :: cs => (pyDigitsStart cs).map (fun n => -(Int.ofNat n))
  | cs => (pyDigitsStart cs).map Int.ofNat

/-! ## The durable state file

`gmail_state.json` is a JSON object; `json.load` produces a dict
(unique keys, insertion-ordered).  We model it as an association list of
string keys and string values. -/

/-- The parsed contents of `gmail_state.json`. -/
abbrev StateFile := List (String × String)

/-- Value stored under a key, Python `dict.get`. -/
def getKey (st : StateFile) (k : String) : Option String :=
  (List.find? (fun p => p.1 = k) st).map (fun p => p.2)

/-- Python `state[k] = v` on a dict: overwrite in place when the key is
present, append at the end otherwise. -/
def setKey (st : StateFile) (k v : String) : StateFile :=
  if List.any st (fun p => p.1 = k) then
    List.map (fun p => if p.1 = k then (k, v) else p) st
  else
    st ++ [(k, v)]

/-- `GmailHandler.get_last_processed_history_id`: `state.get` of the
`last_history_id` key. -/
def get_last_processed_history_id (st : StateFile) : Option String :=
  getKey st "last_history_id"

/-- `GmailHandler.save_last_processed_history_id`: read the state file,
assign the `last_history_id` key to `history_id`, write it back. -/
def save_last_processed_history_id (st : StateFile) (history_id : String) : StateFile :=
  setKey st "last_history_id" history_id

/-! ## The MIME part tree and `email_utils`

A Gmail message part is a recursive tree.  The Gmail JSON uses optional
fields; code accesses them with `.get` and an empty-string default, so a
missing `body.data`, `filename` or `attachmentId` behaves exactly like
the empty string and we model those fields as `String` with `""` for
absent. -/

/-- A node of the Gmail `payload` part tree. -/
inductive MessagePart where
  | node (mimeType : String) (bodyData : String) (filename : String)
      (attachmentId : String) (size : Nat) (parts : List MessagePart)

/-- `mimeType` of a part. -/
def MessagePart.mimeType : MessagePart → String
  | .node m _ _ _ _ _ => m

/-- `body.data` of a part (`""` when absent). -/
def MessagePart.bodyData : MessagePart → String
  | .node _ d _ _ _ _ => d

/-- `filename` of a part (`""` when absent). -/
def MessagePart.filename : MessagePart → String
  | .node _ _ f _ _ _ => f

/-- `body.attachmentId` of a part (`""` when absent). -/
def MessagePart.attachmentId : MessagePart → String
  | .node _ _ _ a _ _ => a

/-- `body.size` of a part. -/
def MessagePart.size : MessagePart → Nat
  | .node _ _ _ _ s _ => s

/-- Child `parts` of a part. -/
def MessagePart.parts : MessagePart → List MessagePart
  | .node _ _ _ _ _ ps => ps

/-- External decoding collaborators used by `email_utils`:
`base64.urlsafe_b64decode` of the data followed by a UTF-8 decode that
ignores undecodable bytes
(`none` models a raised exception, which the code catches per part) and
BeautifulSoup text extraction `_extract_clean_text_from_html` (total:
that helper catches its own exceptions and falls back to a regex). -/
structure Decoders where
  b64decode : String → Option String
  cleanHtml : String → String

/-- A fetched Gmail message in full format. -/
structure GMessage where
  id : String
  threadId : String
  labelIds : List String
  snippet : String
  payload : MessagePart

mutual

/-- `extract_text_from_part` from `email_utils.extract_message_body`:
a node contributes its decoded `body.data` when its `mimeType` matches
the requested kind, then the contributions of the children are appended in
order.  A decode exception contributes nothing. -/
def extract_text_from_part (dec : Decoders) (html_part strip_html : Bool) :
    MessagePart → String
  | .node mime bdata _ _ _ parts =>
    let own : String :=
      if mime = "text/plain" ∧ html_part = false then
        if bdata ≠ "" then
          match dec.b64decode bdata with
          | some s => s
          | none => ""
        else ""
      else if mime = "text/html" ∧ html_part = true then
        if bdata ≠ "" then
          match dec.b64decode bdata with
          | some s => if strip_html then dec.cleanHtml s else s
          | none => ""
        else ""
      else ""
    own ++ extract_text_from_parts dec html_part strip_html parts

/-- Contribution of a list of sibling parts, in order. -/
def extract_text_from_parts (dec : Decoders) (html_part strip_html : Bool) :
    List MessagePart → String
  | [] => ""
  | p :: ps =>
      extract_text_from_part dec html_part strip_html p ++
        extract_text_from_parts dec html_part strip_html ps

end

/-- `email_utils.extract_message_body`: run the recursive walk on the
payload and `.strip()` the result. -/
def extract_message_body (dec : Decoders) (message : GMessage)
    (html_part strip_html : Bool) : String :=
  pyStrip (extract_text_from_part dec html_part strip_html message.payload)

mutual

/-- Does any node of the tree match the requested kind with non-empty
`body.data`? -/
def hasMatchingPart (html_part : Bool) : MessagePart → Bool
  | .node mime bdata _ _ _ parts =>
    (((mime = "text/plain" ∧ html_part = false) ∨
        (mime = "text/html" ∧ html_part = true)) ∧ bdata ≠ "" : Prop) ||
      hasMatchingParts html_part parts

/-- `hasMatchingPart` over a list of parts. -/
def hasMatchingParts (html_part : Bool) : List MessagePart → Bool
  | [] => false
  | p :: ps => hasMatchingPart html_part p || hasMatchingParts html_part ps

end

/-- An entry of the list returned by `email_utils.extract_attachments`. -/
structure AttachmentRef where
  filename : String
  mimeType : String
  attachmentId : String
  size : Nat
deriving DecidableEq

mutual

/-- `find_attachments_in_part`: the attachment entry of the node itself (when it
has a non-empty `filename` and a truthy `body.attachmentId`) followed by
the entries found in its children, in order. -/
def find_attachments_in_part : MessagePart → List AttachmentRef
  | .node mime _ fname attId sz parts =>
    (if fname ≠ "" ∧ attId ≠ "" then
        [{ filename := fname, mimeType := mime, attachmentId := attId, size := sz }]
      else []) ++ find_attachments_in_parts parts

/-- `find_attachments_in_part` over a list of parts. -/
def find_attachments_in_parts : List MessagePart → List AttachmentRef
  | [] => []
  | p :: ps => find_attachments_in_part p ++ find_attachments_in_parts ps

end

/-- `email_utils.extract_attachments`: walk the payload. -/
def extract_attachments (message : GMessage) : List AttachmentRef :=
  find_attachments_in_part message.payload

mutual

/-- Preorder flattening of a part tree: the node itself, then its
flattenings of the children in order.  This is the traversal order of the
recursive walks above. -/
def preorder : MessagePart → List MessagePart
  | .node mime bdata fname attId sz parts =>
    .node mime bdata fname attId sz parts :: preorderList parts

/-- `preorder` over a list of parts. -/
def preorderList : List MessagePart → List MessagePart
  | [] => []
  | p :: ps => preorder p ++ preorderList ps

end

/-- Body selection in `process_email` (lines 56–58): decode preferring
HTML-stripped text, fall back to the plain-text decode when the
HTML-stripped decode is empty. -/
def process_email_body (dec : Decoders) (message : GMessage) : String :=
  let body_text := extract_message_body dec message true true
  if body_text = "" then extract_message_body dec message false false
  else body_text

/-! ## The history-reconciliation engine (`GmailHandler`)

The Gmail API is the external collaborator: an environment supplies the
outcome of `history.list` (as a function of the start cursor the code
passes) and of `messages.get` per message id.  Exceptions raised by the
remote calls are environment outcomes; exceptions raised by the code
itself (the `KeyError` on the message id lookup in a history record) are modelled
by an `Option`-valued id in the history record. -/

/-- Relevant configuration: the label-ID allow-list
(`config.get_gmail_watch_label_ids()`) and the label-name fallback
(`config.get_gmail_watch_labels()`). -/
structure Config where
  watchLabelIds : List String
  watchLabels : List String

/-- One record of the `history.list` response; each element of
`messagesAdded` is the id of the added message, `none` when the relevant
keys are missing (a `KeyError` at use). -/
structure HistoryRecord where
  messagesAdded : List (Option String)

/-- Outcome of a remote `messages.get` call: a response, an `HttpError`,
or another exception. -/
inductive FetchOutcome where
  | ok (m : GMessage)
  | httpError
  | otherError

/-- Outcome of the remote `history.list` call: a list of records, an
`HttpError`, or another exception. -/
inductive HistoryOutcome where
  | ok (records : List HistoryRecord)
  | httpError
  | otherError

/-- The Gmail API oracle for one `process_history` invocation. -/
structure GmailEnv where
  historyList : String → HistoryOutcome
  messagesGet : String → FetchOutcome

/-- `GmailHandler.fetch_message`: `messages.get` in full format;
any raised error is caught and yields `None`, and a response whose `id`
is missing/empty is also discarded. -/
def fetch_message (env : GmailEnv) (message_id : String) : Option GMessage :=
  match env.messagesGet message_id with
  | .httpError => none
  | .otherError => none
  | .ok m => if m.id = "" then none else some m

/-- The label-filter test in `GmailHandler.process_message`:
`requestedLabels and not any(label in labelIds for label in requestedLabels)`
causes a skip; the message is forwarded to `process_email` otherwise. -/
def process_message_forwards (cfg : Config) (message : GMessage) : Bool :=
  !(!List.isEmpty cfg.watchLabelIds &&
      !List.any cfg.watchLabelIds (fun label => List.contains message.labelIds label))

/-- Result of one `process_history` call, read off from its control flow:
the early `return` on a stale cursor (`Skipped`), a normal completion
having counted `n` fetched messages (`Completed n`), or the top-level
`except` branches (`Failed`). -/
inductive ProcResult where
  | Skipped
  | Completed (n : Nat)
  | Failed
deriving DecidableEq

/-- Observable outcome of a `process_history` call: the result, the state
file afterwards, the messages handed to `process_email` in order, and
whether the `history.list` request was issued. -/
structure ProcOutput where
  result : ProcResult
  state : StateFile
  delivered : List GMessage
  historyFetched : Bool

/-- The guarded cursor comparison of `process_history` (lines 149–159):
`True` exactly when the early `return` is taken.  `incoming_id = int(history_id)`;
`last_id = int(last_processed_id) if last_processed_id else 0`; a
`ValueError`/`TypeError` anywhere in the block means "process anyway". -/
def shouldSkip (history_id : String) (st : StateFile) : Bool :=
  match pyParseInt history_id with
  | none => false
  | some incoming_id =>
    match get_last_processed_history_id st with
    | none => incoming_id ≤ 0
    | some s =>
      if s = "" then incoming_id ≤ 0
      else
        match pyParseInt s with
        | none => false
        | some last_id => incoming_id ≤ last_id

/-- `start_history_id = last_processed_id if last_processed_id else history_id`. -/
def startCursor (history_id : String) (st : StateFile) : String :=
  match get_last_processed_history_id st with
  | none => history_id
  | some s => if s = "" then history_id else s

/-- Observable outcome of the message fan-out loop: the messages handed
to `process_email` in order, the `messages_processed` count, and whether
the loop ran to completion. -/
structure FanOutResult where
  delivered : List GMessage
  processed : Nat
  completedLoop : Bool

/-- The message fan-out loop of `process_history` (lines 186–196) over
the flattened `messagesAdded` entries.  A malformed entry raises a
`KeyError`, aborting the loop (`completedLoop = false`) with the
deliveries made before it retained. -/
def fanOut (env : GmailEnv) (cfg : Config) :
    List (Option String) → FanOutResult
  | [] => ⟨[], 0, true⟩
  | none :: _ => ⟨[], 0, false⟩
  | some message_id :: rest =>
    match fetch_message env message_id with
    | none => fanOut env cfg rest
    | some m =>
      let r := fanOut env cfg rest
      ⟨(if process_message_forwards cfg m then [m] else []) ++ r.delivered,
        r.processed + 1, r.completedLoop⟩

/-- `GmailHandler.process_history`, one invocation, translated from
`src/gmail_handler.py` lines 134–206. -/
def process_history (env : GmailEnv) (cfg : Config) (history_id : String)
    (st : StateFile) : ProcOutput :=
  if shouldSkip history_id st then
    { result := .Skipped, state := st, delivered := [], historyFetched := false }
  else
    match env.historyList (startCursor history_id st) with
    | .httpError =>
        { result := .Failed, state := st, delivered := [], historyFetched := true }
    | .otherError =>
        { result := .Failed, state := st, delivered := [], historyFetched := true }
    | .ok records =>
      if records.isEmpty then
        { result := .Completed 0,
          state := save_last_processed_history_id st history_id,
          delivered := [], historyFetched := true }
      else
        let r := fanOut env cfg (records.flatMap (fun rec => rec.messagesAdded))
        if r.completedLoop then
          { result := .Completed r.processed,
            state := save_last_processed_history_id st history_id,
            delivered := r.delivered, historyFetched := true }
        else
          { result := .Failed, state := st, delivered := r.delivered,
            historyFetched := true }

/-- A sequence of non-overlapping `process_history` calls, each with its
own API environment and incoming cursor, threading the state file. -/
def runCalls (cfg : Config) : List (GmailEnv × String) → StateFile → StateFile
  | [], st => st
  | (env, hid) :: rest, st =>
      runCalls cfg rest (process_history env cfg hid st).state

/-- The integer value the comparison block assigns to the stored cursor:
`0` when absent or empty, its parse otherwise (`none` = `ValueError`). -/
def storedLast (st : StateFile) : Option Int :=
  match get_last_processed_history_id st with
  | none => some 0
  | some s => if s = "" then some 0 else pyParseInt s

/-! ## The watch-subscription manager (`WatchManager`) -/

/-- Outcome of the remote `users().stop()` call inside `renew_watch`:
success, an `HttpError` carrying an `error_details` reason, or a
non-HTTP exception. -/
inductive StopOutcome where
  | ok
  | httpError (reason : String)
  | otherError

/-- Response of a successful `users().watch()` call. -/
structure WatchResp where
  historyId : String
  expiration : String

/-- Outcome of the remote `users().watch()` call. -/
inductive WatchOutcome where
  | ok (resp : WatchResp)
  | httpError (reason : String)
  | otherError

/-- The Gmail API oracle for one `renew_watch` invocation. -/
structure WatchEnv where
  stop : StopOutcome
  watch : WatchOutcome

/-- Result dict of `renew_watch` (`status` plus payload). -/
inductive RenewResult where
  | success (historyId expiration : String)
  | error
deriving DecidableEq

/-- Observable outcome of `renew_watch`: its result, whether a stop
request was issued, the label list placed in the watch request body, and
whether the watch request was issued. -/
structure RenewOutput where
  result : RenewResult
  stopAttempted : Bool
  requestLabels : List String
  watchAttempted : Bool
deriving DecidableEq

/-- `WatchManager.renew_watch` (`src/watch_manager.py` lines 102–189):
stop any existing watch first — an `HttpError` from the stop is caught
and only logged (a `failedPrecondition` reason is noted as normal), any
other exception falls to the outer handler — then issue the watch
request with the configured label IDs, falling back to label names. -/
def renew_watch (env : WatchEnv) (cfg : Config) : RenewOutput :=
  let gmail_labels :=
    if cfg.watchLabelIds.isEmpty then cfg.watchLabels else cfg.watchLabelIds
  match env.stop with
  | .otherError =>
      { result := .error, stopAttempted := true,
        requestLabels := gmail_labels, watchAttempted := false }
  | _ =>
    match env.watch with
    | .ok resp =>
        { result := .success resp.historyId resp.expiration,
          stopAttempted := true, requestLabels := gmail_labels,
          watchAttempted := true }
    | .httpError _ =>
        { result := .error, stopAttempted := true,
          requestLabels := gmail_labels, watchAttempted := true }
    | .otherError =>
        { result := .error, stopAttempted := true,
          requestLabels := gmail_labels, watchAttempted := true }

/-! ## Concrete fixtures used by witness theorems -/

/-- Identity decoding oracle (base64 decode succeeds returning the data
verbatim, HTML cleaning is the identity). -/
def decId : Decoders := ⟨fun s => some s, fun s => s⟩

/-- Configuration with no label allow-list. -/
def cfgNone : Config := ⟨[], []⟩

/-- Configuration with allow-list `["IMPORTANT"]`. -/
def cfgImportant : Config := ⟨["IMPORTANT"], []⟩

/-- A one-part plain-text payload. -/
def partPlainW : MessagePart := .node "text/plain" "SGVsbG8=" "" "" 8 []

/-- Fixture message `m1`. -/
def msgW1 : GMessage := ⟨"m1", "t1", ["INBOX"], "s1", partPlainW⟩

/-- Fixture message `m2` (its fetch will fail in `envBatch`). -/
def msgW2 : GMessage := ⟨"m2", "t2", ["INBOX"], "s2", partPlainW⟩

/-- Fixture message `m3`. -/
def msgW3 : GMessage := ⟨"m3", "t3", ["INBOX"], "s3", partPlainW⟩

/-- Fixture history records: one record with three `messageAdded` events. -/
def recordsW : List HistoryRecord := [⟨[some "m1", some "m2", some "m3"]⟩]

/-- API oracle for the fetch-failure-isolation scenario: the history list
has messages `m1`, `m2`, `m3`; fetching `m2` raises an `HttpError`. -/
def envBatch : GmailEnv :=
  { historyList := fun _ => .ok recordsW,
    messagesGet := fun mid =>
      if mid = "m1" then .ok msgW1
      else if mid = "m3" then .ok msgW3
      else .httpError }

/-- API oracle whose history call raises an `HttpError`. -/
def envHistErr : GmailEnv :=
  { historyList := fun _ => .httpError, messagesGet := fun _ => .httpError }

/-- API oracle returning an empty history delta. -/
def envEmpty : GmailEnv :=
  { historyList := fun _ => .ok [], messagesGet := fun _ => .httpError }

/-- A message carrying labels `["INBOX","UNREAD"]`. -/
def msgInboxUnread : GMessage := ⟨"mA", "tA", ["INBOX", "UNREAD"], "sA", partPlainW⟩

/-- The same message after `"IMPORTANT"` is added to its labels. -/
def msgNowImportant : GMessage :=
  ⟨"mA", "tA", ["INBOX", "UNREAD", "IMPORTANT"], "sA", partPlainW⟩

/-- A payload with no `text/plain` or `text/html` part carrying data. -/
def msgNoMatch : GMessage :=
  ⟨"mB", "tB", [], "sB", .node "multipart/mixed" "Zm9v" "" "" 3
    [.node "image/png" "aW1n" "pic.png" "" 3 []]⟩

/-- A message with three parts of which exactly one carries both a
filename and an `attachmentId`. -/
def msgInvoice : GMessage :=
  ⟨"mC", "tC", [], "sC", .node "multipart/mixed" "" "" "" 0
    [.node "text/plain" "Ym9keQ==" "" "" 4 [],
     .node "application/pdf" "" "invoice.pdf" "att-1" 1234 [],
     .node "application/octet-stream" "" "noid.bin" "" 9 []]⟩

/-- Watch oracle whose stop raises a `failedPrecondition` `HttpError`
and whose watch call succeeds. -/
def envWatchFP : WatchEnv :=
  ⟨.httpError "failedPrecondition", .ok ⟨"777", "1700000000"⟩⟩

/-! ## Specification-side descriptions used to characterise the code -/

/-- The messages a fan-out over `entries` should hand to `process_email`:
those whose entry is well-formed, whose fetch succeeds, and which pass
the label filter, in order. -/
def expectedDelivered (env : GmailEnv) (cfg : Config)
    (entries : List (Option String)) : List GMessage :=
  entries.filterMap (fun e => e.bind (fun mid =>
    (fetch_message env mid).bind (fun m =>
      if process_message_forwards cfg m then some m else none)))

/-- The `messages_processed` count a fan-out over `entries` reaches: the
number of successful fetches. -/
def countFetched (env : GmailEnv) (entries : List (Option String)) : Nat :=
  (entries.filterMap (fun e => e.bind (fun mid => fetch_message env mid))).length

/-- Spec-side description of one attachment entry: a part yields an
`AttachmentRef` exactly when it carries a non-empty `filename` and a
non-empty `body.attachmentId`. -/
def specAttachmentOf (p : MessagePart) : Option AttachmentRef :=
  if p.filename ≠ "" ∧ p.attachmentId ≠ "" then
    some { filename := p.filename, mimeType := p.mimeType,
           attachmentId := p.attachmentId, size := p.size }
  else none

/-! # Theorems -/

/-! ## Basic lemmas: parsing and the state file -/

theorem pyParseInt_empty : pyParseInt "" = none := by decide

theorem pyParseInt_ne_empty {s : String} {n : Int} (h : pyParseInt s = some n) :
    s ≠ "" := by
  intro he
  rw [he, pyParseInt_empty] at h
  exact Option.noConfusion h

theorem find?_map_update_self (k v : String) :
    ∀ st : StateFile, List.any st (fun p => p.1 = k) = true →
      List.find? (fun p => p.1 = k)
        (List.map (fun p => if p.1 = k then (k, v) else p) st) = some (k, v) := by
  intro st
  induction st with
  | nil => intro h; simp at h
  | cons p ps ih =>
    intro h
    by_cases hp : p.1 = k
    · simp [List.find?, hp]
    · simp only [List.any_cons, hp, decide_False, Bool.false_or] at h
      simpa [List.find?, hp] using ih h

theorem find?_map_update_other {k k' : String} (v : String) (hne : k' ≠ k) :
    ∀ st : StateFile,
      List.find? (fun p => p.1 = k')
        (List.map (fun p => if p.1 = k then (k, v) else p) st) =
      List.find? (fun p => p.1 = k') st := by
  intro st
  induction st with
  | nil => simp
  | cons p ps ih =>
    by_cases hp : p.1 = k
    · have hk' : ¬((k : String) = k') := fun hkk => hne hkk.symm
      have hp' : ¬(p.1 = k') := by rw [hp]; exact fun hkk => hne hkk.symm
      simpa [List.find?, hp, hk', hp'] using ih
    · by_cases hp' : p.1 = k'
      · simp [List.find?, hp, hp', hne]
      · simpa [List.find?, hp, hp'] using ih

theorem getKey_setKey_self (st : StateFile) (k v : String) :
    getKey (setKey st k v) k = some v := by
  unfold setKey
  by_cases h : List.any st (fun p => p.1 = k) = true
  · rw [if_pos h]
    simp [getKey, find?_map_update_self k v st h]
  · rw [if_neg h]
    have hnone : List.find? (fun p => p.1 = k) st = none := by
      rw [List.find?_eq_none]
      intro p hp
      simp only [List.any_eq_true, decide_eq_true_eq] at h
      simpa using fun hk => h ⟨p, hp, hk⟩
    simp [getKey, List.find?_append, hnone, List.find?]

theorem getKey_setKey_other (st : StateFile) {k k' : String} (v : String)
    (hne : k' ≠ k) : getKey (setKey st k v) k' = getKey st k' := by
  unfold setKey
  by_cases h : List.any st (fun p => p.1 = k) = true
  · rw [if_pos h]
    simp [getKey, find?_map_update_other v hne st]
  · rw [if_neg h]
    have : List.find? (fun p => p.1 = k') [(k, v)] = none := by
      simp [List.find?, hne.symm]
    simp [getKey, List.find?_append, this]

/-! ## Lemmas about the freshness guard -/

theorem shouldSkip_iff (hid : String) (st : StateFile) :
    shouldSkip hid st = true ↔
      ∃ inc last, pyParseInt hid = some inc ∧ storedLast st = some last ∧
        inc ≤ last := by
  unfold shouldSkip storedLast
  cases hph : pyParseInt hid with
  | none => simp
  | some inc =>
    cases hpg : get_last_processed_history_id st with
    | none => simp
    | some s =>
      by_cases hs : s = ""
      · subst hs; simp
      · cases hps : pyParseInt s with
        | none => simp [hs, hps]
        | some last => simp [hs, hps]

theorem shouldSkip_false_lt {hid : String} {st : StateFile} {inc last : Int}
    (hph : pyParseInt hid = some inc) (hsl : storedLast st = some last)
    (hsk : shouldSkip hid st = false) : last < inc := by
  by_contra hle
  push_neg at hle
  have : shouldSkip hid st = true :=
    (shouldSkip_iff hid st).2 ⟨inc, last, hph, hsl, hle⟩
  rw [hsk] at this
  exact Bool.noConfusion this

theorem shouldSkip_true_of_le {hid : String} {st : StateFile} {inc last : Int}
    (hph : pyParseInt hid = some inc) (hsl : storedLast st = some last)
    (hle : inc ≤ last) : shouldSkip hid st = true :=
  (shouldSkip_iff hid st).2 ⟨inc, last, hph, hsl, hle⟩

theorem storedLast_of_parseable {st : StateFile} {s : String} {last : Int}
    (hget : get_last_processed_history_id st = some s)
    (hps : pyParseInt s = some last) : storedLast st = some last := by
  unfold storedLast
  rw [hget]
  simp [pyParseInt_ne_empty hps, hps]

theorem storedLast_save {st : StateFile} {hid : String} {inc : Int}
    (hph : pyParseInt hid = some inc) :
    storedLast (save_last_processed_history_id st hid) = some inc := by
  unfold storedLast
  rw [show get_last_processed_history_id (save_last_processed_history_id st hid)
        = some hid from getKey_setKey_self st "last_history_id" hid]
  simp [pyParseInt_ne_empty hph, hph]

/-! ## Case lemmas for `process_history` -/

theorem process_history_skip {hid : String} {st : StateFile}
    (env : GmailEnv) (cfg : Config) (h : shouldSkip hid st = true) :
    process_history env cfg hid st =
      { result := .Skipped, state := st, delivered := [],
        historyFetched := false } := by
  simp [process_history, h]

theorem process_history_state_cases (env : GmailEnv) (cfg : Config)
    (hid : String) (st : StateFile) :
    (process_history env cfg hid st).state = st ∨
      (shouldSkip hid st = false ∧
        (process_history env cfg hid st).state =
          save_last_processed_history_id st hid) := by
  unfold process_history
  by_cases hsk : shouldSkip hid st
  · simp [hsk]
  · rw [Bool.not_eq_true] at hsk
    rw [hsk]
    cases hl : env.historyList (startCursor hid st) with
    | httpError => simp
    | otherError => simp
    | ok records =>
      by_cases he : records.isEmpty
      · simp [he, hsk]
      · by_cases hc : (fanOut env cfg
            (records.flatMap (fun rec => rec.messagesAdded))).completedLoop
        · simp [he, hc, hsk]
        · simp [he, hc]

theorem process_history_failed_state (env : GmailEnv) (cfg : Config)
    (hid : String) (st : StateFile)
    (h : (process_history env cfg hid st).result = .Failed) :
    (process_history env cfg hid st).state = st := by
  unfold process_history at h ⊢
  by_cases hsk : shouldSkip hid st
  · simp [hsk] at h
  · rw [Bool.not_eq_true] at hsk
    rw [hsk] at h ⊢
    cases hl : env.historyList (startCursor hid st) with
    | httpError => simp
    | otherError => simp
    | ok records =>
      rw [hl] at h
      by_cases he : records.isEmpty
      · simp [he] at h
      · by_cases hcl : (fanOut env cfg
            (records.flatMap (fun rec => rec.messagesAdded))).completedLoop
        · simp [he, hcl] at h
        · simp [he, hcl]

theorem process_history_completed_state (env : GmailEnv) (cfg : Config)
    (hid : String) (st : StateFile) {n : Nat}
    (h : (process_history env cfg hid st).result = .Completed n) :
    shouldSkip hid st = false ∧
      (process_history env cfg hid st).state =
        save_last_processed_history_id st hid := by
  unfold process_history at h ⊢
  by_cases hsk : shouldSkip hid st
  · simp [hsk] at h
  · rw [Bool.not_eq_true] at hsk
    rw [hsk] at h ⊢
    refine ⟨rfl, ?_⟩
    cases hl : env.historyList (startCursor hid st) with
    | httpError => rw [hl] at h; simp at h
    | otherError => rw [hl] at h; simp at h
    | ok records =>
      rw [hl] at h
      by_cases he : records.isEmpty
      · simp [he]
      · by_cases hcl : (fanOut env cfg
            (records.flatMap (fun rec => rec.messagesAdded))).completedLoop
        · simp [he, hcl]
        · simp [he, hcl] at h

theorem process_history_notskip_fetches (env : GmailEnv) (cfg : Config)
    (hid : String) (st : StateFile) (hsk : shouldSkip hid st = false) :
    (process_history env cfg hid st).historyFetched = true ∧
      (process_history env cfg hid st).result ≠ .Skipped := by
  unfold process_history
  rw [hsk]
  cases hl : env.historyList (startCursor hid st) with
  | httpError => simp
  | otherError => simp
  | ok records =>
    by_cases he : records.isEmpty
    · simp [he]
    · by_cases hcl : (fanOut env cfg
          (records.flatMap (fun rec => rec.messagesAdded))).completedLoop
      · simp [he, hcl]
      · simp [he, hcl]

/-! ## The fan-out loop on well-formed history entries -/

theorem fanOut_wellFormed (env : GmailEnv) (cfg : Config) :
    ∀ entries : List (Option String), (∀ e ∈ entries, e ≠ none) →
      fanOut env cfg entries =
        ⟨expectedDelivered env cfg entries, countFetched env entries, true⟩ := by
  intro entries
  induction entries with
  | nil => intro _; rfl
  | cons e rest ih =>
    intro h
    have hrest : ∀ x ∈ rest, x ≠ none :=
      fun x hx => h x (List.mem_cons_of_mem _ hx)
    cases e with
    | none => exact absurd rfl (h none (List.mem_cons_self _ _))
    | some mid =>
      cases hf : fetch_message env mid with
      | none =>
        simp [fanOut, hf, ih hrest, expectedDelivered, countFetched,
          List.filterMap_cons]
      | some m =>
        by_cases hfw : process_message_forwards cfg m
        · simp [fanOut, hf, ih hrest, expectedDelivered, countFetched,
            List.filterMap_cons, hfw]
        · simp [fanOut, hf, ih hrest, expectedDelivered, countFetched,
            List.filterMap_cons, hfw]

/-! ## Monotonicity of the stored cursor -/

theorem storedLast_step (env : GmailEnv) (cfg : Config) {hid : String}
    {st : StateFile} {inc last : Int} (hph : pyParseInt hid = some inc)
    (hsl : storedLast st = some last) :
    ∃ v, storedLast (process_history env cfg hid st).state = some v ∧
      last ≤ v := by
  rcases process_history_state_cases env cfg hid st with hc | ⟨hsk, hc⟩
  · exact ⟨last, by rw [hc]; exact hsl, le_refl _⟩
  · refine ⟨inc, ?_, le_of_lt (shouldSkip_false_lt hph hsl hsk)⟩
    rw [hc]
    exact storedLast_save hph

theorem runCalls_mono (cfg : Config) :
    ∀ calls : List (GmailEnv × String), ∀ st : StateFile, ∀ last : Int,
      storedLast st = some last →
      (∀ c ∈ calls, (pyParseInt c.2).isSome) →
      ∃ v, storedLast (runCalls cfg calls st) = some v ∧ last ≤ v := by
  intro calls
  induction calls with
  | nil => exact fun st last hsl _ => ⟨last, hsl, le_refl _⟩
  | cons c rest ih =>
    intro st last hsl hall
    obtain ⟨env, hid⟩ := c
    have hh : (pyParseInt hid).isSome := hall _ (List.mem_cons_self _ _)
    obtain ⟨inc, hinc⟩ := Option.isSome_iff_exists.mp hh
    obtain ⟨v1, hv1, hle1⟩ := storedLast_step env cfg hinc hsl
    obtain ⟨v, hv, hle⟩ :=
      ih _ v1 hv1 (fun x hx => hall x (List.mem_cons_of_mem _ hx))
    exact ⟨v, by simpa [runCalls] using hv, le_trans hle1 hle⟩

/-! ## The guard is disabled by a failed parse of a non-empty cursor -/

theorem shouldSkip_false_of_unparseable {hid : String} {st : StateFile}
    (h : pyParseInt hid = none ∨
      (∃ s, get_last_processed_history_id st = some s ∧ s ≠ "" ∧
        pyParseInt s = none)) : shouldSkip hid st = false := by
  unfold shouldSkip
  rcases h with hph | ⟨s, hget, hs, hps⟩
  · rw [hph]
  · cases hph : pyParseInt hid with
    | none => rfl
    | some inc =>
      rw [hget]
      simp [hs, hps]

/-! ## Frame property of `setKey` -/

theorem filter_ne_map_update (k v : String) :
    ∀ st : StateFile,
      List.filter (fun p => p.1 ≠ k)
        (List.map (fun p => if p.1 = k then (k, v) else p) st) =
      List.filter (fun p => p.1 ≠ k) st := by
  intro st
  induction st with
  | nil => rfl
  | cons p ps ih =>
    by_cases hp : p.1 = k
    · simpa [List.filter_cons, hp] using ih
    · simpa [List.filter_cons, hp] using ih

theorem filter_ne_setKey (st : StateFile) (k v : String) :
    List.filter (fun p => p.1 ≠ k) (setKey st k v) =
      List.filter (fun p => p.1 ≠ k) st := by
  unfold setKey
  by_cases h : List.any st (fun p => p.1 = k) = true
  · rw [if_pos h]
    exact filter_ne_map_update k v st
  · rw [if_neg h]
    simp [List.filter_append]

/-! ## Tree lemmas: empty decode and attachment traversal -/

mutual

theorem extract_text_from_part_empty (dec : Decoders) (hp sh : Bool) :
    ∀ p : MessagePart, hasMatchingPart hp p = false →
      extract_text_from_part dec hp sh p = ""
  | .node mime bdata fn aid sz parts => fun h => by
      rw [hasMatchingPart] at h
      rcases Bool.or_eq_false_iff.mp h with ⟨hP, hrest⟩
      have hnP := of_decide_eq_false hP
      rw [extract_text_from_part,
        extract_text_from_parts_empty dec hp sh parts hrest]
      by_cases h1 : mime = "text/plain" ∧ hp = false
      · have hbd : bdata = "" := by
          by_contra hb
          exact hnP ⟨Or.inl h1, hb⟩
        simp [h1, hbd]
      · by_cases h2 : mime = "text/html" ∧ hp = true
        · have hbd : bdata = "" := by
            by_contra hb
            exact hnP ⟨Or.inr h2, hb⟩
          simp [h1, h2, hbd]
        · simp [h1, h2]

theorem extract_text_from_parts_empty (dec : Decoders) (hp sh : Bool) :
    ∀ ps : List MessagePart, hasMatchingParts hp ps = false →
      extract_text_from_parts dec hp sh ps = ""
  | [] => fun _ => rfl
  | p :: ps => fun h => by
      rw [hasMatchingParts] at h
      rcases Bool.or_eq_false_iff.mp h with ⟨h1, h2⟩
      rw [extract_text_from_parts,
        extract_text_from_part_empty dec hp sh p h1,
        extract_text_from_parts_empty dec hp sh ps h2]
      rfl

end

mutual

theorem find_attachments_eq_preorder :
    ∀ p : MessagePart,
      find_attachments_in_part p = (preorder p).filterMap specAttachmentOf
  | .node mime bdata fn aid sz parts => by
      rw [find_attachments_in_part, preorder,
        find_attachments_eq_preorder_list parts, List.filterMap_cons]
      by_cases hc : fn ≠ "" ∧ aid ≠ ""
      · simp [specAttachmentOf, MessagePart.filename, MessagePart.mimeType,
          MessagePart.attachmentId, MessagePart.size, hc]
      · simp [specAttachmentOf, MessagePart.filename, MessagePart.mimeType,
          MessagePart.attachmentId, MessagePart.size, hc]

theorem find_attachments_eq_preorder_list :
    ∀ ps : List MessagePart,
      find_attachments_in_parts ps = (preorderList ps).filterMap specAttachmentOf
  | [] => rfl
  | p :: ps => by
      rw [find_attachments_in_parts, preorderList, List.filterMap_append,
        find_attachments_eq_preorder p, find_attachments_eq_preorder_list ps]

end

/-! # Claim theorems -/

/-- C1: when both the incoming cursor and the stored cursor parse as
integers and the incoming cursor is ≤ the stored cursor,
`process_history` returns `Skipped` immediately: no history fetch, no
delivery, no state mutation; and after any successfully completed call a
second call with the same cursor (against any API environment, in
particular one with no new mail) is `Skipped` with zero deliveries. -/
theorem freshness_skip_idempotence :
    (∀ (env : GmailEnv) (cfg : Config) (hid : String) (st : StateFile)
        (inc last : Int) (s : String),
        pyParseInt hid = some inc →
        get_last_processed_history_id st = some s →
        pyParseInt s = some last →
        inc ≤ last →
        process_history env cfg hid st =
          { result := .Skipped, state := st, delivered := [],
            historyFetched := false }) ∧
    (∀ (env1 env2 : GmailEnv) (cfg : Config) (hid : String) (st : StateFile)
        (inc : Int) (n : Nat),
        pyParseInt hid = some inc →
        (process_history env1 cfg hid st).result = .Completed n →
        process_history env2 cfg hid (process_history env1 cfg hid st).state =
          { result := .Skipped,
            state := (process_history env1 cfg hid st).state,
            delivered := [], historyFetched := false }) := by
  constructor
  · intro env cfg hid st inc last s hph hget hps hle
    exact process_history_skip env cfg
      (shouldSkip_true_of_le hph (storedLast_of_parseable hget hps) hle)
  · intro env1 env2 cfg hid st inc n hph hcomp
    have hstate := (process_history_completed_state env1 cfg hid st hcomp).2
    apply process_history_skip env2 cfg
    apply shouldSkip_true_of_le hph _ (le_refl inc)
    rw [hstate]
    exact storedLast_save hph

/-- C1 witness: with stored cursor `"100"`, an incoming `"100"` is
skipped outright, whatever the API would have answered. -/
theorem freshness_skip_idempotence_witness :
    process_history envHistErr cfgNone "100" [("last_history_id", "100")] =
      { result := .Skipped, state := [("last_history_id", "100")],
        delivered := [], historyFetched := false } :=
  freshness_skip_idempotence.1 envHistErr cfgNone "100"
    [("last_history_id", "100")] 100 100 "100"
    (by decide) (by decide) (by decide) (by decide)

/-- C2: the stored cursor never regresses.  A call whose incoming cursor
is ≤ the stored value leaves the state file unchanged; a successfully
completed call sets the stored cursor to its incoming cursor; and over
any sequence of calls with parseable incoming cursors the stored value
is monotonically nondecreasing. -/
theorem cursor_never_regresses :
    (∀ (env : GmailEnv) (cfg : Config) (hid : String) (st : StateFile)
        (inc last : Int),
        pyParseInt hid = some inc →
        storedLast st = some last →
        inc ≤ last →
        (process_history env cfg hid st).state = st) ∧
    (∀ (env : GmailEnv) (cfg : Config) (hid : String) (st : StateFile)
        (n : Nat),
        (process_history env cfg hid st).result = .Completed n →
        get_last_processed_history_id
          (process_history env cfg hid st).state = some hid) ∧
    (∀ (cfg : Config) (calls : List (GmailEnv × String)) (st : StateFile)
        (last : Int),
        storedLast st = some last →
        (∀ c ∈ calls, (pyParseInt c.2).isSome) →
        ∃ v, storedLast (runCalls cfg calls st) = some v ∧ last ≤ v) := by
  refine ⟨?_, ?_, ?_⟩
  · intro env cfg hid st inc last hph hsl hle
    rw [process_history_skip env cfg (shouldSkip_true_of_le hph hsl hle)]
  · intro env cfg hid st n hcomp
    rw [(process_history_completed_state env cfg hid st hcomp).2]
    exact getKey_setKey_self st "last_history_id" hid
  · intro cfg calls st last hsl hall
    exact runCalls_mono cfg calls st last hsl hall

/-- C2 witness: `reconcile(50)` after `reconcile(100)` (from an empty
state, against an environment with no new mail) still leaves a stored
value ≥ 0; and concretely a stale call leaves the state unchanged. -/
theorem cursor_never_regresses_witness :
    (process_history envHistErr cfgNone "50"
        [("last_history_id", "100")]).state = [("last_history_id", "100")] ∧
    (∃ v, storedLast (runCalls cfgNone
        [(envEmpty, "100"), (envEmpty, "50")] []) = some v ∧ (0 : Int) ≤ v) := by
  constructor
  · exact cursor_never_regresses.1 envHistErr cfgNone "50"
      [("last_history_id", "100")] 50 100 (by decide) (by decide) (by decide)
  · apply cursor_never_regresses.2.2 cfgNone
      [(envEmpty, "100"), (envEmpty, "50")] [] 0 (by decide)
    intro c hc
    rcases List.mem_cons.mp hc with h | hc2
    · rw [h]; decide
    · rcases List.mem_cons.mp hc2 with h | h
      · rw [h]; decide
      · exact absurd h (List.not_mem_nil c)

/-- C4: whenever `process_history` ends in `Failed` — in particular when
the `history.list` call raises an API-level (`HttpError`) or other
unexpected exception — the exception is absorbed by the top-level
handler (the call still returns a value) and the stored state file is
left unmodified, so a retry can redo the same range. -/
theorem toplevel_failure_leaves_cursor :
    ∀ (env : GmailEnv) (cfg : Config) (hid : String) (st : StateFile),
      ((process_history env cfg hid st).result = .Failed →
        (process_history env cfg hid st).state = st) ∧
      (shouldSkip hid st = false →
        (env.historyList (startCursor hid st) = .httpError ∨
         env.historyList (startCursor hid st) = .otherError) →
        (process_history env cfg hid st).result = .Failed ∧
          (process_history env cfg hid st).state = st) := by
  intro env cfg hid st
  constructor
  · exact process_history_failed_state env cfg hid st
  · intro hsk herr
    unfold process_history
    rw [hsk]
    rcases herr with h | h <;> rw [h] <;> exact ⟨rfl, rfl⟩

/-- C4 witness: a fresh cursor against an API whose history call raises
is reported as `Failed` with the state file untouched. -/
theorem toplevel_failure_leaves_cursor_witness :
    (process_history envHistErr cfgNone "1050"
        [("last_history_id", "1000")]).result = .Failed ∧
    (process_history envHistErr cfgNone "1050"
        [("last_history_id", "1000")]).state = [("last_history_id", "1000")] :=
  (toplevel_failure_leaves_cursor envHistErr cfgNone "1050"
      [("last_history_id", "1000")]).2 (by decide) (Or.inl rfl)

/-- C3: over a batch of well-formed `messageAdded` events (and a cursor
that does not trigger the freshness skip), a failed fetch of an
individual message only drops that message: the call completes, the
delivered list is exactly the fetch-successful, filter-passing messages
in order, and the stored cursor advances to the incoming cursor. -/
theorem fetch_failure_isolation :
    ∀ (env : GmailEnv) (cfg : Config) (hid : String) (st : StateFile)
      (records : List HistoryRecord),
      shouldSkip hid st = false →
      env.historyList (startCursor hid st) = .ok records →
      (∀ e ∈ records.flatMap (fun rec => rec.messagesAdded), e ≠ none) →
      process_history env cfg hid st =
        { result := .Completed
            (countFetched env (records.flatMap (fun rec => rec.messagesAdded))),
          state := save_last_processed_history_id st hid,
          delivered := expectedDelivered env cfg
            (records.flatMap (fun rec => rec.messagesAdded)),
          historyFetched := true } := by
  intro env cfg hid st records hsk hl hwf
  unfold process_history
  rw [hsk, hl]
  by_cases he : records.isEmpty
  · have hrec : records = [] := List.isEmpty_iff.mp he
    subst hrec
    simp [expectedDelivered, countFetched]
  · have hfo := fanOut_wellFormed env cfg
      (records.flatMap (fun rec => rec.messagesAdded)) hwf
    simp [he, hfo]

/-- C3 witness: in a batch of three added messages where fetching the
second raises, the first and third are still delivered and the cursor
advances to the incoming `"1050"`. -/
theorem fetch_failure_isolation_witness :
    (process_history envBatch cfgNone "1050"
        [("last_history_id", "1000")]).delivered = [msgW1, msgW3] ∧
    (process_history envBatch cfgNone "1050"
        [("last_history_id", "1000")]).result = .Completed 2 ∧
    get_last_processed_history_id
      (process_history envBatch cfgNone "1050"
        [("last_history_id", "1000")]).state = some "1050" := by
  have h := fetch_failure_isolation envBatch cfgNone "1050"
    [("last_history_id", "1000")] recordsW (by decide) rfl
    (show ∀ e ∈ recordsW.flatMap (fun rec => rec.messagesAdded), e ≠ none
      by decide)
  rw [h]
  exact ⟨rfl, rfl, rfl⟩

/-- C5: a fetched message is forwarded to `process_email` iff the
allow-list is empty or some label of the message is in the allow-list;
in particular with allow-list `["IMPORTANT"]` a message labelled
`["INBOX","UNREAD"]` is not forwarded, and adding `"IMPORTANT"` makes it
forwarded. -/
theorem label_filter_forwarding :
    (∀ (cfg : Config) (m : GMessage),
      process_message_forwards cfg m = true ↔
        (cfg.watchLabelIds = [] ∨
          ∃ l, l ∈ m.labelIds ∧ l ∈ cfg.watchLabelIds)) ∧
    process_message_forwards cfgImportant msgInboxUnread = false ∧
    process_message_forwards cfgImportant msgNowImportant = true := by
  refine ⟨?_, by decide, by decide⟩
  intro cfg m
  unfold process_message_forwards
  by_cases hids : cfg.watchLabelIds = []
  · simp [hids]
  · simp only [List.any_eq_true, List.elem_iff, List.isEmpty_iff, hids,
      false_or, Bool.not_eq_true', Bool.and_eq_false_iff, Bool.not_eq_false',
      Bool.not_eq_true, Bool.not_eq_false]
    constructor
    · rintro ⟨x, hx, hm⟩
      exact ⟨x, hm, hx⟩
    · rintro ⟨l, hm, hl⟩
      exact ⟨l, hl, hm⟩

/-- C5 witness: with an empty allow-list every fetched message is
forwarded. -/
theorem label_filter_forwarding_witness :
    process_message_forwards cfgNone msgInboxUnread = true :=
  (label_filter_forwarding.1 cfgNone msgInboxUnread).mpr (Or.inl rfl)

/-- C6: when no part of the tree matches the requested kind with
non-empty `body.data`, `extract_message_body` returns the empty string,
whatever the decoding oracles do; and `process_email` falls back from
the HTML-stripped decode to the plain-text decode exactly when the
HTML-stripped decode is empty. -/
theorem body_decode_fallback :
    ∀ (dec : Decoders) (msg : GMessage) (hp sh : Bool),
      (hasMatchingPart hp msg.payload = false →
        extract_message_body dec msg hp sh = "") ∧
      (extract_message_body dec msg true true = "" →
        process_email_body dec msg = extract_message_body dec msg false false) ∧
      (extract_message_body dec msg true true ≠ "" →
        process_email_body dec msg = extract_message_body dec msg true true) := by
  intro dec msg hp sh
  refine ⟨?_, ?_, ?_⟩
  · intro h
    unfold extract_message_body
    rw [extract_text_from_part_empty dec hp sh msg.payload h]
    decide
  · intro h
    unfold process_email_body
    rw [h]
    rfl
  · intro h
    unfold process_email_body
    simp [h]

/-- C6 witness: a payload with only `multipart/*` and `image/png` parts
decodes to the empty string for the HTML request, and the forwarding
path then uses the plain-text decode. -/
theorem body_decode_fallback_witness :
    extract_message_body decId msgNoMatch true true = "" ∧
    process_email_body decId msgNoMatch =
      extract_message_body decId msgNoMatch false false := by
  have h1 := (body_decode_fallback decId msgNoMatch true true).1 (by decide)
  exact ⟨h1, (body_decode_fallback decId msgNoMatch true true).2.1 h1⟩

/-- C7: attachment extraction returns exactly the parts of the payload
tree, in preorder traversal order and without de-duplication, that carry
both a non-empty `filename` and a non-empty `body.attachmentId`; in
particular a three-part message with a single such part yields exactly
one `AttachmentRef`. -/
theorem attachment_extraction_exact :
    (∀ msg : GMessage,
      extract_attachments msg = (preorder msg.payload).filterMap specAttachmentOf) ∧
    extract_attachments msgInvoice =
      [{ filename := "invoice.pdf", mimeType := "application/pdf",
         attachmentId := "att-1", size := 1234 }] := by
  refine ⟨?_, by decide⟩
  intro msg
  exact find_attachments_eq_preorder msg.payload

/-- C7 witness: the characterisation applied to the three-part fixture
message. -/
theorem attachment_extraction_exact_witness :
    extract_attachments msgInvoice =
      (preorder msgInvoice.payload).filterMap specAttachmentOf :=
  attachment_extraction_exact.1 msgInvoice

/-- C8: an `HttpError` with reason `failedPrecondition` from the
stop-before-renew call is benign: `renew_watch` behaves exactly as if
the stop had succeeded — it still issues the watch request and its
result is determined by the watch call alone. -/
theorem renew_stop_failed_precondition_benign :
    ∀ (env : WatchEnv) (cfg : Config),
      env.stop = .httpError "failedPrecondition" →
      renew_watch env cfg = renew_watch { env with stop := .ok } cfg ∧
      (renew_watch env cfg).stopAttempted = true ∧
      (renew_watch env cfg).watchAttempted = true := by
  intro env cfg h
  unfold renew_watch
  rw [h]
  cases hw : env.watch <;> simp

/-- C8 witness: with a `failedPrecondition` stop error and a succeeding
watch call, `renew_watch` still succeeds and attempts the watch. -/
theorem renew_stop_failed_precondition_benign_witness :
    renew_watch envWatchFP cfgNone =
      renew_watch { envWatchFP with stop := .ok } cfgNone ∧
    (renew_watch envWatchFP cfgNone).stopAttempted = true ∧
    (renew_watch envWatchFP cfgNone).watchAttempted = true :=
  renew_stop_failed_precondition_benign envWatchFP cfgNone rfl

/-- C9 counterexample: the claim "if either cursor fails to parse as an
integer, the freshness short-circuit is not applied and reconciliation
proceeds to the history fetch" is false as stated.  A stored cursor `""`
does not parse as an integer, yet with incoming cursor `"0"` the code
treats the empty stored value as `0`, applies the freshness check, and
returns `Skipped` without issuing any history fetch. -/
theorem malformed_cursor_claim_cex :
    pyParseInt "" = none ∧
    get_last_processed_history_id [("last_history_id", "")] = some "" ∧
    process_history envBatch cfgNone "0" [("last_history_id", "")] =
      { result := .Skipped, state := [("last_history_id", "")],
        delivered := [], historyFetched := false } := by
  refine ⟨by decide, by decide, ?_⟩
  have hsk : shouldSkip "0" [("last_history_id", "")] = true := by decide
  exact process_history_skip envBatch cfgNone hsk

/-- C9 (amended): when the incoming cursor fails to parse as an integer,
or the stored cursor is present, non-empty and fails to parse as an
integer, the freshness short-circuit is not applied: the call is never
`Skipped` and the history fetch is issued.  (An empty or absent stored
cursor is not parsed at all — it is treated as `0` and the freshness
check still applies.) -/
theorem malformed_cursor_proceeds :
    ∀ (env : GmailEnv) (cfg : Config) (hid : String) (st : StateFile),
      (pyParseInt hid = none ∨
        (∃ s, get_last_processed_history_id st = some s ∧ s ≠ "" ∧
          pyParseInt s = none)) →
      (process_history env cfg hid st).historyFetched = true ∧
        (process_history env cfg hid st).result ≠ .Skipped := by
  intro env cfg hid st h
  exact process_history_notskip_fetches env cfg hid st
    (shouldSkip_false_of_unparseable h)

/-- C9 witness: a non-numeric stored cursor `"abc"` does not block
reconciliation — the history fetch is still issued. -/
theorem malformed_cursor_proceeds_witness :
    (process_history envEmpty cfgNone "1050"
        [("last_history_id", "abc")]).historyFetched = true ∧
    (process_history envEmpty cfgNone "1050"
        [("last_history_id", "abc")]).result ≠ .Skipped :=
  malformed_cursor_proceeds envEmpty cfgNone "1050"
    [("last_history_id", "abc")]
    (Or.inr ⟨"abc", by decide, by decide, by decide⟩)

/-- C10: saving the cursor mutates only the `last_history_id` key of the
state record: the saved key reads back as the new cursor, every other
key reads back unchanged, and the list of non-cursor entries is
preserved verbatim. -/
theorem save_mutates_only_cursor_key :
    ∀ (st : StateFile) (hid : String),
      getKey (save_last_processed_history_id st hid) "last_history_id" =
        some hid ∧
      (∀ k, k ≠ "last_history_id" →
        getKey (save_last_processed_history_id st hid) k = getKey st k) ∧
      List.filter (fun p => p.1 ≠ "last_history_id")
          (save_last_processed_history_id st hid) =
        List.filter (fun p => p.1 ≠ "last_history_id") st := by
  intro st hid
  refine ⟨getKey_setKey_self st "last_history_id" hid, ?_, ?_⟩
  · intro k hk
    exact getKey_setKey_other st hid hk
  · exact filter_ne_setKey st "last_history_id" hid

/-- C10 witness: saving a cursor over a state file holding an unrelated
key preserves the value of that key. -/
theorem save_mutates_only_cursor_key_witness :
    getKey (save_last_processed_history_id [("other", "7")] "42") "other" =
      some "7" :=
  (save_mutates_only_cursor_key [("other", "7")] "42").2.1 "other" (by decide)

end GmailPubsub
